import Mathlib

/-!
# terraform-provider-containerregistry: authenticator selection and digest lookup

A shallow embedding of `main.go`: `buildAuthenticator`, `providerConfigure` and
`dataSourceContainerRegistryImageRead`, together with the small part of the
Terraform plugin SDK and of go-containerregistry that these functions touch.

* Go values of type `interface{}` are the inductive `Value`; a single-value type
  assertion `v.(T)` is a function into `Except String _`, whose error is the
  run-time panic.
* A Go `map[string]V` is an association list with first-match lookup; assignment
  `m[k] = v` replaces the entry of `k`.
* A Go `error` is its message, the string that `%s` prints.
* The registry client (`name.ParseReference`, `remote.Image`) is a parameter
  (`Registry`); every call of `remote.Image` is recorded in the result of the read.
-/

set_option autoImplicit false

namespace ContainerRegistry

/-! ## Dynamic values and type assertions -/

/-- A Go value held in an `interface{}`, as far as the SDK hands them to this
provider: the nil interface, a `string`, a `[]interface{}`, a
`map[string]interface{}`. -/
inductive Value where
  | nil
  | str (s : String)
  | list (items : List Value)
  | map (entries : List (String × Value))

/-- Name of the dynamic type, as the panic message of a failed assertion prints it. -/
def Value.typeName : Value → String
  | .nil => "nil"
  | .str _ => "string"
  | .list _ => "[]interface {}"
  | .map _ => "map[string]interface {}"

/-- Message of the panic of a failed single-value type assertion. -/
def conversionPanic (v : Value) (target : String) : String :=
  "interface conversion: interface {} is " ++ v.typeName ++ ", not " ++ target

/-- The assertion `v.(string)`. -/
def Value.assertString : Value → Except String String
  | .str s => .ok s
  | v => .error (conversionPanic v "string")

/-- The assertion `v.([]interface{})`. -/
def Value.assertList : Value → Except String (List Value)
  | .list xs => .ok xs
  | v => .error (conversionPanic v "[]interface {}")

/-- The assertion `v.(map[string]interface{})`. -/
def Value.assertMap : Value → Except String (List (String × Value))
  | .map kvs => .ok kvs
  | v => .error (conversionPanic v "map[string]interface {}")

/-- Index expression `m[k]` on a `map[string]interface{}`: the nil interface when
the key is missing. -/
def index (m : List (String × Value)) (k : String) : Value :=
  (m.lookup k).getD .nil

/-- Assignment `m[k] = v` on a Go map: the entry of `k` is replaced. -/
def assign {V : Type} (m : List (String × V)) (k : String) (v : V) : List (String × V) :=
  (k, v) :: m.filter (fun e => e.1 != k)

/-! ## go-containerregistry -/

/-- The struct `authn.AuthConfig`, the five fields this provider fills. -/
structure AuthConfig where
  username : String
  password : String
  auth : String
  identityToken : String
  registryToken : String
  deriving DecidableEq, Repr

/-- An `authn.Authenticator`; the only ones this provider makes come from
`authn.FromConfig`, which wraps the configuration. -/
structure Authenticator where
  config : AuthConfig
  deriving DecidableEq, Repr

/-- The library call `authn.FromConfig`. -/
def FromConfig (cfg : AuthConfig) : Authenticator := ⟨cfg⟩

/-- The keychains of `authn`; this provider names `authn.DefaultKeychain` only. -/
inductive Keychain where
  | DefaultKeychain
  deriving DecidableEq, Repr

/-- A `context.Context`, told apart by a label. -/
structure Context where
  label : String
  deriving DecidableEq, Repr

/-- The options of `remote` that the read passes to `remote.Image`. -/
inductive RemoteOption where
  | WithContext (ctx : Context)
  | WithAuth (a : Authenticator)
  | WithAuthFromKeychain (k : Keychain)
  deriving DecidableEq, Repr

/-- A `name.Repository`: registry and repository path. -/
structure Repository where
  registry : String
  repository : String
  deriving DecidableEq, Repr

/-- The method `RegistryStr()` of a repository. -/
def Repository.RegistryStr (r : Repository) : String := r.registry

/-- A parsed `name.Reference`: repository plus tag or digest. -/
structure Reference where
  context : Repository
  identifier : String
  deriving DecidableEq, Repr

/-- The method `Context()` of a reference. -/
def Reference.Context (r : Reference) : Repository := r.context

/-- The struct `v1.Hash`. -/
structure Hash where
  algorithm : String
  hex : String
  deriving DecidableEq, Repr

/-- The method `String()` of a hash. -/
def Hash.String (h : Hash) : String := h.algorithm ++ ":" ++ h.hex

/-- A `v1.Image` as far as the read uses it: what its method `Digest()` returns. -/
structure Image where
  Digest : Except String Hash

/-- The registry client the provider calls into: `name.ParseReference` and
`remote.Image`. -/
structure Registry where
  ParseReference : String → Except String Reference
  Image : Reference → List RemoteOption → Except String Image

/-! ## Terraform plugin SDK -/

/-- Severity of a diagnostic. -/
inductive Severity where
  | Error
  | Warning
  deriving DecidableEq, Repr

/-- A `diag.Diagnostic`. -/
structure Diagnostic where
  severity : Severity
  summary : String
  detail : String
  deriving DecidableEq, Repr

/-- The type `diag.Diagnostics`; the Go `nil` is the empty list. -/
abbrev Diagnostics := List Diagnostic

/-- The call `diag.Errorf(format, ...)`, given the formatted text. -/
def Errorf (formatted : String) : Diagnostics :=
  [{ severity := .Error, summary := formatted, detail := "" }]

/-- The call `diag.FromErr(err)` for a non-nil error. -/
def FromErr (err : String) : Diagnostics :=
  [{ severity := .Error, summary := err, detail := "" }]

/-- The value types of the schemas of this provider. -/
inductive ValueType where
  | TypeString
  | TypeList
  deriving DecidableEq, Repr

/-- Zero value of a schema type. -/
def ValueType.zero : ValueType → Value
  | .TypeString => .str ""
  | .TypeList => .list []

/-- Whether a value is the zero value of its kind (the test of `GetOk`). -/
def Value.isZero : Value → Bool
  | .str s => s == ""
  | .list xs => xs.isEmpty
  | _ => false

/-- Whether a value can be stored under a schema type. -/
def ValueType.accepts : ValueType → Value → Bool
  | .TypeString, .str _ => true
  | .TypeList, .list _ => true
  | _, _ => false

/-- A `schema.ResourceData`: the schema, the configured attributes as the field
reader delivers them, the attributes written with `Set`, and the id. -/
structure ResourceData where
  schema : List (String × ValueType)
  config : List (String × Value)
  written : List (String × Value)
  id : String

/-- The method `Get`: a written value, else the configured one, else the zero
value of the attribute; the nil interface for a key outside the schema. -/
def ResourceData.Get (d : ResourceData) (key : String) : Value :=
  match d.schema.lookup key with
  | none => .nil
  | some t =>
    match d.written.lookup key with
    | some v => v
    | none => (d.config.lookup key).getD t.zero

/-- The method `GetOk`: the value of `Get`, and whether the attribute is set to a
value other than its zero value. -/
def ResourceData.GetOk (d : ResourceData) (key : String) : Value × Bool :=
  let v := d.Get key
  let isSet := (d.written.lookup key).isSome || (d.config.lookup key).isSome
  (v, (d.schema.lookup key).isSome && isSet && !v.isZero)

/-- The method `Set`: writes the attribute when the schema has it with a fitting
type; otherwise it returns an error and writes nothing (the callers here drop
that error). -/
def ResourceData.Set (d : ResourceData) (key : String) (v : Value) : ResourceData :=
  match d.schema.lookup key with
  | some t => if t.accepts v then { d with written := assign d.written key v } else d
  | none => d

/-- The method `SetId`. -/
def ResourceData.SetId (d : ResourceData) (id : String) : ResourceData :=
  { d with id := id }

/-- The method `Id`. -/
def ResourceData.Id (d : ResourceData) : String := d.id

/-- What `providerConfigure` returns as `interface{}` and the SDK hands to every
read as `meta`. -/
inductive Meta where
  | nil
  | authenticators (m : List (String × Authenticator))

/-- The assertion `meta.(map[string]authn.Authenticator)`. -/
def Meta.assertAuthenticators : Meta → Except String (List (String × Authenticator))
  | .authenticators m => .ok m
  | .nil => .error "interface conversion: interface {} is nil, not map[string]authn.Authenticator"

/-! ## main.go -/

/-- Function `buildAuthenticator` (main.go 13-22). -/
def buildAuthenticator (auth : List (String × Value)) : Except String Authenticator := do
  let username ← (index auth "username").assertString
  let password ← (index auth "password").assertString
  let authStr ← (index auth "auth").assertString
  let identityToken ← (index auth "identity_token").assertString
  let registryToken ← (index auth "registry_token").assertString
  let config : AuthConfig :=
    { username := username, password := password, auth := authStr,
      identityToken := identityToken, registryToken := registryToken }
  return FromConfig config

/-- Body of the loop of `providerConfigure` (main.go 27-28). -/
def providerConfigureStep (authenticators : List (String × Authenticator)) (e : Value) :
    Except String (List (String × Authenticator)) := do
  let auth ← e.assertMap
  let address ← (index auth "address").assertString
  let authenticator ← buildAuthenticator auth
  return assign authenticators address authenticator

/-- Function `providerConfigure` (main.go 24-31); the error is a panic. -/
def providerConfigure (_ctx : Context) (d : ResourceData) : Except String (Meta × Diagnostics) := do
  let blocks ← (d.Get "auth").assertList
  let authenticators ← blocks.foldlM providerConfigureStep []
  return (Meta.authenticators authenticators, [])

/-- One call of `remote.Image`. -/
abbrev Query := Reference × List RemoteOption

/-- What an execution of the read leaves behind: the diagnostics it returned (or
the panic that ended it), the resource data, and the registry queries issued. -/
structure ReadResult where
  outcome : Except String Diagnostics
  data : ResourceData
  queries : List Query

/-- The authenticator selection of the read (main.go 39-47): the options passed
to `remote.Image`. -/
def selectOptions (ctx : Context) (data : ResourceData)
    (authenticators : List (String × Authenticator)) (ref : Reference) :
    Except String (List RemoteOption) :=
  let opts := [RemoteOption.WithContext ctx]
  match data.GetOk "auth" with
  | (auth, true) => do
    let block ← auth.assertMap
    let authenticator ← buildAuthenticator block
    return opts ++ [RemoteOption.WithAuth authenticator]
  | (_, false) =>
    match authenticators.lookup ref.Context.RegistryStr with
    | some authenticator => .ok (opts ++ [RemoteOption.WithAuth authenticator])
    | none => .ok (opts ++ [RemoteOption.WithAuthFromKeychain Keychain.DefaultKeychain])

/-- Function `dataSourceContainerRegistryImageRead` (main.go 33-61). -/
def dataSourceContainerRegistryImageRead (registry : Registry) (ctx : Context)
    (data : ResourceData) (meta : Meta) : ReadResult :=
  match (data.Get "name").assertString with
  | .error p => ⟨.error p, data, []⟩
  | .ok nameStr =>
  match registry.ParseReference nameStr with
  | .error err => ⟨.ok (Errorf ("Error parsing reference: " ++ err)), data, []⟩
  | .ok ref =>
  match meta.assertAuthenticators with
  | .error p => ⟨.error p, data, []⟩
  | .ok authenticators =>
  match selectOptions ctx data authenticators ref with
  | .error p => ⟨.error p, data, []⟩
  | .ok opts =>
  match registry.Image ref opts with
  | .error err => ⟨.ok (Errorf ("Error querying image: " ++ err)), data, [(ref, opts)]⟩
  | .ok img =>
  match img.Digest with
  | .error err => ⟨.ok (FromErr err), data, [(ref, opts)]⟩
  | .ok hash =>
    let digest := hash.String
    ⟨.ok [], (data.Set "digest" (.str digest)).SetId digest, [(ref, opts)]⟩

/-! ## The schemas of `Provider()` and the inputs they admit -/

/-- Schema of the provider configuration (main.go 65-103). -/
def providerSchema : List (String × ValueType) :=
  [("auth", .TypeList)]

/-- Schema of the data source `containerregistry_image` (main.go 109-151). -/
def imageSchema : List (String × ValueType) :=
  [("name", .TypeString), ("digest", .TypeString), ("auth", .TypeList)]

/-- The five string attributes of a credential block (main.go 76-99 and 124-147). -/
structure Credentials where
  username : String
  password : String
  auth : String
  identityToken : String
  registryToken : String
  deriving DecidableEq, Repr

/-- The credential attributes as the field reader delivers them: every attribute
of the block is present, an unset one as the empty string. -/
def Credentials.entries (c : Credentials) : List (String × Value) :=
  [("auth", .str c.auth), ("identity_token", .str c.identityToken),
   ("password", .str c.password), ("registry_token", .str c.registryToken),
   ("username", .str c.username)]

/-- The `authn.AuthConfig` that carries the five attributes unchanged. -/
def Credentials.toAuthConfig (c : Credentials) : AuthConfig :=
  { username := c.username, password := c.password, auth := c.auth,
    identityToken := c.identityToken, registryToken := c.registryToken }

/-- Whether none of the five credential attributes is set to a non-empty string. -/
def Credentials.isEmpty (c : Credentials) : Bool :=
  c.username == "" && c.password == "" && c.auth == "" && c.identityToken == ""
    && c.registryToken == ""

/-- An `auth` block of the data source as an element of the delivered list: a
`map[string]interface{}` with the five attributes. For a block none of whose
attributes is set the object reader of the SDK reports that nothing exists, and the
list reader puts the nil interface in its place. -/
def Credentials.toValue (c : Credentials) : Value :=
  if c.isEmpty then .nil else .map c.entries

/-- An `auth` block of the provider: the address and the credentials. -/
structure ProviderAuth where
  address : String
  credentials : Credentials
  deriving DecidableEq, Repr

/-- A provider `auth` block as the field reader delivers it. -/
def ProviderAuth.entries (b : ProviderAuth) : List (String × Value) :=
  ("address", .str b.address) :: b.credentials.entries

/-- Whether none of the six attributes of a provider block is set to a non-empty
string. -/
def ProviderAuth.isEmpty (b : ProviderAuth) : Bool :=
  b.address == "" && b.credentials.isEmpty

/-- A provider `auth` block as an element of the delivered list: a
`map[string]interface{}` with the six attributes, and the nil interface for a
block none of whose attributes is set (as for `Credentials.toValue`). -/
def ProviderAuth.toValue (b : ProviderAuth) : Value :=
  if b.isEmpty then .nil else .map b.entries

/-- The resource data the SDK builds from a provider configuration with the given
`auth` blocks: a `TypeList` attribute, hence a list with one element per block,
each delivered as `ProviderAuth.toValue` says. -/
def providerData (blocks : List ProviderAuth) : ResourceData :=
  { schema := providerSchema
    config := [("auth", .list (blocks.map ProviderAuth.toValue))]
    written := []
    id := "" }

/-- A configuration of the data source: `name`, and `auth` absent or one block
(`MaxItems: 1`). -/
structure ImageInput where
  name : String
  auth : Option Credentials
  deriving DecidableEq, Repr

/-- The attributes of a data-source configuration as the field reader delivers
them: `auth` is a `TypeList`, so a supplied block arrives as a list of one
element, the block as `Credentials.toValue` says. -/
def ImageInput.config (i : ImageInput) : List (String × Value) :=
  match i.auth with
  | none => [("name", .str i.name)]
  | some c => [("name", .str i.name), ("auth", .list [c.toValue])]

/-- The resource data a read of the data source starts from: no id and nothing
written yet. -/
def ImageInput.toData (i : ImageInput) : ResourceData :=
  { schema := imageSchema
    config := i.config
    written := []
    id := "" }

/-! ## Sample values -/

/-- A registry client for the examples: it rejects the empty name, takes every
other name as a repository of `index.docker.io`, and serves one image for
`alpine` only. -/
def sampleRegistry : Registry where
  ParseReference := fun s =>
    if s = "" then .error "could not parse reference: "
    else .ok { context := { registry := "index.docker.io", repository := s }, identifier := "latest" }
  Image := fun ref _ =>
    if ref.context.repository = "alpine" then .ok { Digest := .ok { algorithm := "sha256", hex := "c0ffee" } }
    else .error "MANIFEST_UNKNOWN"

/-- The context of the examples. -/
def sampleContext : Context := { label := "read" }

/-- The credentials of the examples. -/
def sampleCredentials : Credentials :=
  { username := "alice", password := "secret", auth := "", identityToken := "", registryToken := "" }

/-- Another set of credentials. -/
def otherCredentials : Credentials :=
  { username := "bob", password := "hunter2", auth := "", identityToken := "", registryToken := "" }

/-- A data-source configuration without `auth`. -/
def plainInput : ImageInput := { name := "alpine", auth := none }

/-- A data-source configuration with one `auth` block. -/
def authInput : ImageInput := { name := "alpine", auth := some sampleCredentials }

/-- A data-source configuration whose name the sample parser rejects. -/
def rejectedInput : ImageInput := { name := "", auth := some sampleCredentials }

/-- A data-source configuration whose image the sample registry does not have. -/
def missingInput : ImageInput := { name := "busybox", auth := none }

/-- A provider-level map with an entry for `index.docker.io`. -/
def dockerAuthenticators : List (String × Authenticator) :=
  [("index.docker.io", FromConfig otherCredentials.toAuthConfig)]

/-- A provider-level map without an entry for `index.docker.io`. -/
def quayAuthenticators : List (String × Authenticator) :=
  [("quay.io", FromConfig otherCredentials.toAuthConfig)]

/-- The reference `sampleRegistry` parses `alpine` to. -/
def alpineRef : Reference :=
  { context := { registry := "index.docker.io", repository := "alpine" }, identifier := "latest" }

/-! ## What the SDK accessors give on a data-source configuration -/

theorem toData_get_name (i : ImageInput) : i.toData.Get "name" = .str i.name := by
  cases i with
  | mk name auth => cases auth <;> rfl

theorem toData_getOk_auth_absent (i : ImageInput) (h : i.auth = none) :
    i.toData.GetOk "auth" = (.list [], false) := by
  cases i with
  | mk name auth =>
    cases h
    rfl

theorem toData_getOk_auth_block (i : ImageInput) (c : Credentials) (h : i.auth = some c) :
    i.toData.GetOk "auth" = (.list [c.toValue], true) := by
  cases i with
  | mk name auth =>
    cases h
    rfl

theorem toData_getOk_digest (i : ImageInput) : (i.toData.GetOk "digest").2 = false := by
  cases i with
  | mk name auth => cases auth <;> rfl

/-- On a schema-delivered credential block `buildAuthenticator` succeeds and
copies the five attributes. -/
theorem buildAuthenticator_entries (c : Credentials) :
    buildAuthenticator c.entries = .ok (FromConfig c.toAuthConfig) := by
  rfl

/-! ## The authenticator selection -/

theorem selectOptions_block (ctx : Context) (i : ImageInput) (c : Credentials)
    (m : List (String × Authenticator)) (ref : Reference) (h : i.auth = some c) :
    selectOptions ctx i.toData m ref
      = .error (conversionPanic (.list [c.toValue]) "map[string]interface {}") := by
  unfold selectOptions
  rw [toData_getOk_auth_block i c h]
  rfl

theorem selectOptions_registry (ctx : Context) (i : ImageInput)
    (m : List (String × Authenticator)) (ref : Reference) (a : Authenticator)
    (h : i.auth = none) (hm : m.lookup ref.Context.RegistryStr = some a) :
    selectOptions ctx i.toData m ref
      = .ok [RemoteOption.WithContext ctx, RemoteOption.WithAuth a] := by
  unfold selectOptions
  rw [toData_getOk_auth_absent i h]
  simp only [hm]
  rfl

theorem selectOptions_keychain (ctx : Context) (i : ImageInput)
    (m : List (String × Authenticator)) (ref : Reference)
    (h : i.auth = none) (hm : m.lookup ref.Context.RegistryStr = none) :
    selectOptions ctx i.toData m ref
      = .ok [RemoteOption.WithContext ctx,
             RemoteOption.WithAuthFromKeychain Keychain.DefaultKeychain] := by
  unfold selectOptions
  rw [toData_getOk_auth_absent i h]
  simp only [hm]
  rfl

/-- Whether an option is one of the three authentication options. -/
def RemoteOption.isAuth : RemoteOption → Bool
  | .WithContext _ => false
  | .WithAuth _ => true
  | .WithAuthFromKeychain _ => true

/-- Whatever the resource data holds, a selection that does not panic is the
context option followed by exactly one authentication option. -/
theorem selectOptions_shape (ctx : Context) (data : ResourceData)
    (m : List (String × Authenticator)) (ref : Reference) (opts : List RemoteOption)
    (h : selectOptions ctx data m ref = .ok opts) :
    ∃ o, opts = [RemoteOption.WithContext ctx, o] ∧ o.isAuth = true := by
  unfold selectOptions at h
  split at h
  · rename_i auth _
    cases hA : auth.assertMap with
    | error p => simp [hA, bind, Except.bind] at h
    | ok block =>
      cases hB : buildAuthenticator block with
      | error p => simp [hA, hB, bind, Except.bind] at h
      | ok a =>
        simp [hA, hB, bind, Except.bind, pure, Except.pure] at h
        exact ⟨_, h.symm, rfl⟩
  · split at h
    · rename_i a _
      injection h with h
      exact ⟨_, h.symm, rfl⟩
    · injection h with h
      exact ⟨_, h.symm, rfl⟩

/-- Every execution issues at most one registry query and leaves the queries it
made in the result; a panic or a rejected reference leaves none. -/
theorem read_queries_le_one (registry : Registry) (ctx : Context) (data : ResourceData)
    (meta : Meta) :
    (dataSourceContainerRegistryImageRead registry ctx data meta).queries.length ≤ 1 := by
  unfold dataSourceContainerRegistryImageRead
  repeat' split
  all_goals simp

/-- An execution that parses the reference and does not panic issues exactly one
query, whose options are the context option and one authentication option. -/
theorem read_one_query_of_no_panic (registry : Registry) (ctx : Context) (data : ResourceData)
    (meta : Meta) (s : String) (ref : Reference) (diags : Diagnostics)
    (hname : data.Get "name" = .str s) (hparse : registry.ParseReference s = .ok ref)
    (hout : (dataSourceContainerRegistryImageRead registry ctx data meta).outcome = .ok diags) :
    ∃ o, (dataSourceContainerRegistryImageRead registry ctx data meta).queries
        = [(ref, [RemoteOption.WithContext ctx, o])] ∧ o.isAuth = true := by
  unfold dataSourceContainerRegistryImageRead at hout ⊢
  simp only [hname, Value.assertString, hparse] at hout ⊢
  cases hM : meta.assertAuthenticators with
  | error p => simp [hM] at hout
  | ok m =>
    cases hS : selectOptions ctx data m ref with
    | error p => simp [hM, hS] at hout
    | ok opts =>
      obtain ⟨o, ho, hauth⟩ := selectOptions_shape ctx data m ref opts hS
      refine ⟨o, ?_, hauth⟩
      subst ho
      simp only [hM, hS]
      repeat' split
      all_goals rfl

theorem toData_set_digest (i : ImageInput) (d : String) :
    ((i.toData.Set "digest" (.str d)).SetId d).Id = d
      ∧ ((i.toData.Set "digest" (.str d)).SetId d).Get "digest" = .str d := by
  cases i with
  | mk name auth => cases auth <;> exact ⟨rfl, rfl⟩

/-- With a per-call `auth` block and a reference that parses, the read panics at
the conversion of the `auth` value, before any query, whatever the provider map. -/
theorem read_auth_block_panics (registry : Registry) (ctx : Context) (i : ImageInput)
    (c : Credentials) (m : List (String × Authenticator)) (ref : Reference)
    (h : i.auth = some c) (hparse : registry.ParseReference i.name = .ok ref) :
    (dataSourceContainerRegistryImageRead registry ctx i.toData (.authenticators m)).outcome
        = .error (conversionPanic (.list [c.toValue]) "map[string]interface {}")
      ∧ (dataSourceContainerRegistryImageRead registry ctx i.toData (.authenticators m)).queries
        = [] := by
  have hread : dataSourceContainerRegistryImageRead registry ctx i.toData (.authenticators m)
      = ⟨.error (conversionPanic (.list [c.toValue]) "map[string]interface {}"),
          i.toData, []⟩ := by
    unfold dataSourceContainerRegistryImageRead
    simp only [toData_get_name, Value.assertString, hparse, Meta.assertAuthenticators,
      selectOptions_block ctx i c m ref h]
  rw [hread]
  exact ⟨rfl, rfl⟩

/-! ## The claims about the read -/

/-- C1, evaluated on the code: for the configuration `authInput` (a name that
parses and one `auth` block, delivered as a list of one block) and a provider map
with an entry for the registry, `buildAuthenticator` would build an authenticator
from the block, yet the read ends in the panic of the conversion of the list to a
single block and issues no query, so none with that authenticator. -/
theorem read_per_call_auth_not_used :
    sampleRegistry.ParseReference authInput.name = .ok alpineRef
      ∧ buildAuthenticator sampleCredentials.entries
          = .ok (FromConfig sampleCredentials.toAuthConfig)
      ∧ (dataSourceContainerRegistryImageRead sampleRegistry sampleContext authInput.toData
          (.authenticators dockerAuthenticators)).outcome
          = .error "interface conversion: interface {} is []interface {}, not map[string]interface {}"
      ∧ (dataSourceContainerRegistryImageRead sampleRegistry sampleContext authInput.toData
          (.authenticators dockerAuthenticators)).queries
          ≠ [(alpineRef, [RemoteOption.WithContext sampleContext,
                RemoteOption.WithAuth (FromConfig sampleCredentials.toAuthConfig)])] := by
  refine ⟨rfl, rfl, rfl, ?_⟩
  rw [(read_auth_block_panics sampleRegistry sampleContext authInput sampleCredentials
    dockerAuthenticators alpineRef rfl rfl).2]
  exact List.noConfusion

/-- A registry client that serves its image only to a query with exactly the
options `accepted`, and answers every other query with `UNAUTHORIZED`. -/
def guardedRegistry (accepted : List RemoteOption) : Registry where
  ParseReference := sampleRegistry.ParseReference
  Image := fun _ opts =>
    if opts = accepted then .ok { Digest := .ok { algorithm := "sha256", hex := "c0ffee" } }
    else .error "UNAUTHORIZED"

/-- C2: for a configuration without per-call `auth` whose name parses to `ref`, and
a provider map `m` with an entry `a` under `ref.Context().RegistryStr()`, the read
is what the answer of `remote.Image(ref, WithContext(ctx), WithAuth(a))` makes it:
the registry is asked with exactly the authenticator `a`, that one query is the
only one, and the default keychain is not among its options. -/
theorem read_uses_registry_authenticator (registry : Registry) (ctx : Context)
    (input : ImageInput) (m : List (String × Authenticator)) (ref : Reference)
    (a : Authenticator) (hauth : input.auth = none)
    (hparse : registry.ParseReference input.name = .ok ref)
    (hm : m.lookup ref.Context.RegistryStr = some a) :
    dataSourceContainerRegistryImageRead registry ctx input.toData (.authenticators m)
        = (match registry.Image ref [RemoteOption.WithContext ctx, RemoteOption.WithAuth a] with
          | .error err =>
            ⟨.ok (Errorf ("Error querying image: " ++ err)), input.toData,
              [(ref, [RemoteOption.WithContext ctx, RemoteOption.WithAuth a])]⟩
          | .ok img =>
            match img.Digest with
            | .error err =>
              ⟨.ok (FromErr err), input.toData,
                [(ref, [RemoteOption.WithContext ctx, RemoteOption.WithAuth a])]⟩
            | .ok hash =>
              ⟨.ok [], (input.toData.Set "digest" (.str hash.String)).SetId hash.String,
                [(ref, [RemoteOption.WithContext ctx, RemoteOption.WithAuth a])]⟩)
      ∧ (dataSourceContainerRegistryImageRead registry ctx input.toData
            (.authenticators m)).queries
          = [(ref, [RemoteOption.WithContext ctx, RemoteOption.WithAuth a])]
      ∧ ∀ q ∈ (dataSourceContainerRegistryImageRead registry ctx input.toData
            (.authenticators m)).queries,
          RemoteOption.WithAuthFromKeychain Keychain.DefaultKeychain ∉ q.2 := by
  have hread : dataSourceContainerRegistryImageRead registry ctx input.toData
      (.authenticators m)
        = (match registry.Image ref [RemoteOption.WithContext ctx, RemoteOption.WithAuth a] with
          | .error err =>
            ⟨.ok (Errorf ("Error querying image: " ++ err)), input.toData,
              [(ref, [RemoteOption.WithContext ctx, RemoteOption.WithAuth a])]⟩
          | .ok img =>
            match img.Digest with
            | .error err =>
              ⟨.ok (FromErr err), input.toData,
                [(ref, [RemoteOption.WithContext ctx, RemoteOption.WithAuth a])]⟩
            | .ok hash =>
              ⟨.ok [], (input.toData.Set "digest" (.str hash.String)).SetId hash.String,
                [(ref, [RemoteOption.WithContext ctx, RemoteOption.WithAuth a])]⟩) := by
    unfold dataSourceContainerRegistryImageRead
    simp only [toData_get_name, Value.assertString, hparse, Meta.assertAuthenticators,
      selectOptions_registry ctx input m ref a hauth hm]
  have hq : (dataSourceContainerRegistryImageRead registry ctx input.toData
      (.authenticators m)).queries
        = [(ref, [RemoteOption.WithContext ctx, RemoteOption.WithAuth a])] := by
    rw [hread]
    repeat' split
    all_goals rfl
  refine ⟨hread, hq, ?_⟩
  intro q hmem
  rw [hq] at hmem
  simp only [List.mem_singleton] at hmem
  subst hmem
  simp

theorem read_uses_registry_authenticator_witness :
    plainInput.auth = none
      ∧ (guardedRegistry [RemoteOption.WithContext sampleContext,
            RemoteOption.WithAuth (FromConfig otherCredentials.toAuthConfig)]).ParseReference
          plainInput.name = .ok alpineRef
      ∧ dockerAuthenticators.lookup alpineRef.Context.RegistryStr
          = some (FromConfig otherCredentials.toAuthConfig)
      ∧ (dataSourceContainerRegistryImageRead
          (guardedRegistry [RemoteOption.WithContext sampleContext,
            RemoteOption.WithAuth (FromConfig otherCredentials.toAuthConfig)])
          sampleContext plainInput.toData (.authenticators dockerAuthenticators)).outcome
          = .ok []
      ∧ (dataSourceContainerRegistryImageRead
          (guardedRegistry [RemoteOption.WithContext sampleContext,
            RemoteOption.WithAuth (FromConfig otherCredentials.toAuthConfig)])
          sampleContext plainInput.toData (.authenticators dockerAuthenticators)).queries
          = [(alpineRef, [RemoteOption.WithContext sampleContext,
                RemoteOption.WithAuth (FromConfig otherCredentials.toAuthConfig)])] :=
  have h := read_uses_registry_authenticator
    (guardedRegistry [RemoteOption.WithContext sampleContext,
      RemoteOption.WithAuth (FromConfig otherCredentials.toAuthConfig)])
    sampleContext plainInput dockerAuthenticators alpineRef
    (FromConfig otherCredentials.toAuthConfig) rfl rfl rfl
  ⟨rfl, rfl, rfl, (congrArg ReadResult.outcome h.1).trans rfl, h.2.1⟩

/-- C3: for a configuration without per-call `auth` whose name parses to `ref`, and
a provider map with no entry under the registry string of `ref`, the read is what
the answer of `remote.Image(ref, WithContext(ctx),
WithAuthFromKeychain(DefaultKeychain))` makes it: the registry is asked with the
default keychain, that one query is the only one, and no explicit authenticator is
among its options. -/
theorem read_uses_default_keychain (registry : Registry) (ctx : Context)
    (input : ImageInput) (m : List (String × Authenticator)) (ref : Reference)
    (hauth : input.auth = none)
    (hparse : registry.ParseReference input.name = .ok ref)
    (hm : m.lookup ref.Context.RegistryStr = none) :
    dataSourceContainerRegistryImageRead registry ctx input.toData (.authenticators m)
        = (match registry.Image ref [RemoteOption.WithContext ctx,
              RemoteOption.WithAuthFromKeychain Keychain.DefaultKeychain] with
          | .error err =>
            ⟨.ok (Errorf ("Error querying image: " ++ err)), input.toData,
              [(ref, [RemoteOption.WithContext ctx,
                RemoteOption.WithAuthFromKeychain Keychain.DefaultKeychain])]⟩
          | .ok img =>
            match img.Digest with
            | .error err =>
              ⟨.ok (FromErr err), input.toData,
                [(ref, [RemoteOption.WithContext ctx,
                  RemoteOption.WithAuthFromKeychain Keychain.DefaultKeychain])]⟩
            | .ok hash =>
              ⟨.ok [], (input.toData.Set "digest" (.str hash.String)).SetId hash.String,
                [(ref, [RemoteOption.WithContext ctx,
                  RemoteOption.WithAuthFromKeychain Keychain.DefaultKeychain])]⟩)
      ∧ (dataSourceContainerRegistryImageRead registry ctx input.toData
            (.authenticators m)).queries
          = [(ref, [RemoteOption.WithContext ctx,
              RemoteOption.WithAuthFromKeychain Keychain.DefaultKeychain])]
      ∧ ∀ q ∈ (dataSourceContainerRegistryImageRead registry ctx input.toData
            (.authenticators m)).queries,
          ∀ a : Authenticator, RemoteOption.WithAuth a ∉ q.2 := by
  have hread : dataSourceContainerRegistryImageRead registry ctx input.toData
      (.authenticators m)
        = (match registry.Image ref [RemoteOption.WithContext ctx,
              RemoteOption.WithAuthFromKeychain Keychain.DefaultKeychain] with
          | .error err =>
            ⟨.ok (Errorf ("Error querying image: " ++ err)), input.toData,
              [(ref, [RemoteOption.WithContext ctx,
                RemoteOption.WithAuthFromKeychain Keychain.DefaultKeychain])]⟩
          | .ok img =>
            match img.Digest with
            | .error err =>
              ⟨.ok (FromErr err), input.toData,
                [(ref, [RemoteOption.WithContext ctx,
                  RemoteOption.WithAuthFromKeychain Keychain.DefaultKeychain])]⟩
            | .ok hash =>
              ⟨.ok [], (input.toData.Set "digest" (.str hash.String)).SetId hash.String,
                [(ref, [RemoteOption.WithContext ctx,
                  RemoteOption.WithAuthFromKeychain Keychain.DefaultKeychain])]⟩) := by
    unfold dataSourceContainerRegistryImageRead
    simp only [toData_get_name, Value.assertString, hparse, Meta.assertAuthenticators,
      selectOptions_keychain ctx input m ref hauth hm]
  have hq : (dataSourceContainerRegistryImageRead registry ctx input.toData
      (.authenticators m)).queries
        = [(ref, [RemoteOption.WithContext ctx,
              RemoteOption.WithAuthFromKeychain Keychain.DefaultKeychain])] := by
    rw [hread]
    repeat' split
    all_goals rfl
  refine ⟨hread, hq, ?_⟩
  intro q hmem a
  rw [hq] at hmem
  simp only [List.mem_singleton] at hmem
  subst hmem
  simp

theorem read_uses_default_keychain_witness :
    plainInput.auth = none
      ∧ (guardedRegistry [RemoteOption.WithContext sampleContext,
            RemoteOption.WithAuthFromKeychain Keychain.DefaultKeychain]).ParseReference
          plainInput.name = .ok alpineRef
      ∧ quayAuthenticators.lookup alpineRef.Context.RegistryStr = none
      ∧ (dataSourceContainerRegistryImageRead
          (guardedRegistry [RemoteOption.WithContext sampleContext,
            RemoteOption.WithAuthFromKeychain Keychain.DefaultKeychain])
          sampleContext plainInput.toData (.authenticators quayAuthenticators)).outcome
          = .ok []
      ∧ (dataSourceContainerRegistryImageRead
          (guardedRegistry [RemoteOption.WithContext sampleContext,
            RemoteOption.WithAuthFromKeychain Keychain.DefaultKeychain])
          sampleContext plainInput.toData (.authenticators quayAuthenticators)).queries
          = [(alpineRef, [RemoteOption.WithContext sampleContext,
                RemoteOption.WithAuthFromKeychain Keychain.DefaultKeychain])] :=
  have h := read_uses_default_keychain
    (guardedRegistry [RemoteOption.WithContext sampleContext,
      RemoteOption.WithAuthFromKeychain Keychain.DefaultKeychain])
    sampleContext plainInput quayAuthenticators alpineRef rfl rfl rfl
  ⟨rfl, rfl, rfl, (congrArg ReadResult.outcome h.1).trans rfl, h.2.1⟩

/-- C4: when the reference parser rejects the configured name with error `e`, then
for every `auth` input and every `meta` the read returns the one error diagnostic
with summary `"Error parsing reference: " ++ e`, issues no query, and leaves the
resource data as it was: the id is still empty and `digest` is still unset. -/
theorem read_parse_error (registry : Registry) (ctx : Context) (input : ImageInput)
    (meta : Meta) (e : String) (hparse : registry.ParseReference input.name = .error e) :
    (dataSourceContainerRegistryImageRead registry ctx input.toData meta).outcome
        = .ok [{ severity := .Error, summary := "Error parsing reference: " ++ e, detail := "" }]
      ∧ (dataSourceContainerRegistryImageRead registry ctx input.toData meta).data.Id = ""
      ∧ ((dataSourceContainerRegistryImageRead registry ctx input.toData meta).data.GetOk
          "digest").2 = false
      ∧ (dataSourceContainerRegistryImageRead registry ctx input.toData meta).data.written = []
      ∧ (dataSourceContainerRegistryImageRead registry ctx input.toData meta).queries = [] := by
  have hread : dataSourceContainerRegistryImageRead registry ctx input.toData meta
      = ⟨.ok (Errorf ("Error parsing reference: " ++ e)), input.toData, []⟩ := by
    unfold dataSourceContainerRegistryImageRead
    simp only [toData_get_name, Value.assertString, hparse]
  rw [hread]
  exact ⟨rfl, rfl, toData_getOk_digest input, rfl, rfl⟩

theorem read_parse_error_witness :
    sampleRegistry.ParseReference rejectedInput.name = .error "could not parse reference: "
      ∧ (dataSourceContainerRegistryImageRead sampleRegistry sampleContext rejectedInput.toData
          (.authenticators dockerAuthenticators)).outcome
          = .ok [{ severity := .Error,
                   summary := "Error parsing reference: " ++ "could not parse reference: ",
                   detail := "" }] :=
  ⟨rfl, (read_parse_error sampleRegistry sampleContext rejectedInput
    (.authenticators dockerAuthenticators) "could not parse reference: " rfl).1⟩

/-- Once the reference has parsed and the selection has given `opts`, the one
query of the read is `remote.Image(ref, opts...)`. -/
theorem read_queries_of_select (registry : Registry) (ctx : Context) (data : ResourceData)
    (meta : Meta) (s : String) (ref : Reference) (m : List (String × Authenticator))
    (opts : List RemoteOption)
    (hname : data.Get "name" = .str s) (hparse : registry.ParseReference s = .ok ref)
    (hM : meta.assertAuthenticators = .ok m) (hS : selectOptions ctx data m ref = .ok opts) :
    (dataSourceContainerRegistryImageRead registry ctx data meta).queries = [(ref, opts)] := by
  unfold dataSourceContainerRegistryImageRead
  simp only [hname, Value.assertString, hparse, hM, hS]
  repeat' split
  all_goals rfl

/-- The options of a read whose reference parsed and that issued the query
`(ref, opts)` are the ones the selection gave. -/
theorem select_of_read_queries (registry : Registry) (ctx : Context) (data : ResourceData)
    (meta : Meta) (s : String) (ref : Reference) (opts : List RemoteOption)
    (hname : data.Get "name" = .str s) (hparse : registry.ParseReference s = .ok ref)
    (hquery : (dataSourceContainerRegistryImageRead registry ctx data meta).queries
      = [(ref, opts)]) :
    ∃ m, meta.assertAuthenticators = .ok m ∧ selectOptions ctx data m ref = .ok opts := by
  cases hM : meta.assertAuthenticators with
  | error p =>
    unfold dataSourceContainerRegistryImageRead at hquery
    simp [hname, Value.assertString, hparse, hM] at hquery
  | ok m =>
    cases hS : selectOptions ctx data m ref with
    | error p =>
      unfold dataSourceContainerRegistryImageRead at hquery
      simp [hname, Value.assertString, hparse, hM, hS] at hquery
    | ok opts' =>
      have h := read_queries_of_select registry ctx data meta s ref m opts' hname hparse hM hS
      rw [h] at hquery
      simp only [List.cons.injEq, Prod.mk.injEq, true_and, and_true] at hquery
      exact ⟨m, rfl, by rw [hS, hquery]⟩

/-- C5: for a read whose reference parses to `ref`, whose query `(ref, opts)`
succeeds with image `img`, and whose digest is obtained as hash `h`, the returned
diagnostics are empty, and the resource id and the `digest` attribute are both the
string `h.String()`. -/
theorem read_success (registry : Registry) (ctx : Context) (input : ImageInput)
    (meta : Meta) (ref : Reference) (opts : List RemoteOption) (img : Image) (h : Hash)
    (hparse : registry.ParseReference input.name = .ok ref)
    (hquery : (dataSourceContainerRegistryImageRead registry ctx input.toData meta).queries
      = [(ref, opts)])
    (himg : registry.Image ref opts = .ok img) (hdig : img.Digest = .ok h) :
    (dataSourceContainerRegistryImageRead registry ctx input.toData meta).outcome = .ok []
      ∧ (dataSourceContainerRegistryImageRead registry ctx input.toData meta).data.Id
          = h.String
      ∧ (dataSourceContainerRegistryImageRead registry ctx input.toData meta).data.Get "digest"
          = .str h.String := by
  obtain ⟨m, hM, hS⟩ := select_of_read_queries registry ctx input.toData meta input.name ref
    opts (toData_get_name input) hparse hquery
  have hread : dataSourceContainerRegistryImageRead registry ctx input.toData meta
      = ⟨.ok [], (input.toData.Set "digest" (.str h.String)).SetId h.String,
          [(ref, opts)]⟩ := by
    unfold dataSourceContainerRegistryImageRead
    simp only [toData_get_name, Value.assertString, hparse, hM, hS, himg, hdig]
  rw [hread]
  exact ⟨rfl, (toData_set_digest input h.String).1, (toData_set_digest input h.String).2⟩

theorem read_success_witness :
    sampleRegistry.ParseReference plainInput.name = .ok alpineRef
      ∧ (dataSourceContainerRegistryImageRead sampleRegistry sampleContext plainInput.toData
          (.authenticators dockerAuthenticators)).queries
          = [(alpineRef, [RemoteOption.WithContext sampleContext,
                RemoteOption.WithAuth (FromConfig otherCredentials.toAuthConfig)])]
      ∧ (dataSourceContainerRegistryImageRead sampleRegistry sampleContext plainInput.toData
          (.authenticators dockerAuthenticators)).outcome = .ok []
      ∧ (dataSourceContainerRegistryImageRead sampleRegistry sampleContext plainInput.toData
          (.authenticators dockerAuthenticators)).data.Id = "sha256:c0ffee"
      ∧ (dataSourceContainerRegistryImageRead sampleRegistry sampleContext plainInput.toData
          (.authenticators dockerAuthenticators)).data.Get "digest" = .str "sha256:c0ffee" :=
  ⟨rfl, rfl,
    read_success sampleRegistry sampleContext plainInput (.authenticators dockerAuthenticators)
      alpineRef
      [RemoteOption.WithContext sampleContext,
        RemoteOption.WithAuth (FromConfig otherCredentials.toAuthConfig)]
      { Digest := .ok { algorithm := "sha256", hex := "c0ffee" } }
      { algorithm := "sha256", hex := "c0ffee" } rfl rfl rfl rfl⟩

/-- C6: for a read whose reference parses to `ref` and whose query `(ref, opts)`
fails with error `e`, the read returns the one error diagnostic with summary
`"Error querying image: " ++ e`, and the resource data, the id and the `digest`
attribute with it, is exactly what it was before the read. -/
theorem read_query_error (registry : Registry) (ctx : Context) (data : ResourceData)
    (meta : Meta) (s : String) (ref : Reference) (opts : List RemoteOption) (e : String)
    (hname : data.Get "name" = .str s) (hparse : registry.ParseReference s = .ok ref)
    (hquery : (dataSourceContainerRegistryImageRead registry ctx data meta).queries
      = [(ref, opts)])
    (himg : registry.Image ref opts = .error e) :
    (dataSourceContainerRegistryImageRead registry ctx data meta).outcome
        = .ok [{ severity := .Error, summary := "Error querying image: " ++ e, detail := "" }]
      ∧ (dataSourceContainerRegistryImageRead registry ctx data meta).data.Id = data.Id
      ∧ (dataSourceContainerRegistryImageRead registry ctx data meta).data.Get "digest"
          = data.Get "digest"
      ∧ (dataSourceContainerRegistryImageRead registry ctx data meta).data.written
          = data.written := by
  obtain ⟨m, hM, hS⟩ := select_of_read_queries registry ctx data meta s ref opts hname hparse
    hquery
  have hread : dataSourceContainerRegistryImageRead registry ctx data meta
      = ⟨.ok (Errorf ("Error querying image: " ++ e)), data, [(ref, opts)]⟩ := by
    unfold dataSourceContainerRegistryImageRead
    simp only [hname, Value.assertString, hparse, hM, hS, himg]
  rw [hread]
  exact ⟨rfl, rfl, rfl, rfl⟩

theorem read_query_error_witness :
    missingInput.toData.Get "name" = .str "busybox"
      ∧ (dataSourceContainerRegistryImageRead sampleRegistry sampleContext missingInput.toData
          (.authenticators quayAuthenticators)).outcome
          = .ok [{ severity := .Error,
                   summary := "Error querying image: " ++ "MANIFEST_UNKNOWN", detail := "" }]
      ∧ (dataSourceContainerRegistryImageRead sampleRegistry sampleContext missingInput.toData
          (.authenticators quayAuthenticators)).data.Id = missingInput.toData.Id :=
  have h := read_query_error sampleRegistry sampleContext missingInput.toData
    (.authenticators quayAuthenticators) "busybox"
    { context := { registry := "index.docker.io", repository := "busybox" },
      identifier := "latest" }
    [RemoteOption.WithContext sampleContext,
      RemoteOption.WithAuthFromKeychain Keychain.DefaultKeychain]
    "MANIFEST_UNKNOWN" rfl rfl rfl rfl
  ⟨rfl, h.1, h.2.1⟩

/-- C8, evaluated on the code: the name of `authInput` parses, yet the read of
`authInput` issues no registry query at all (it panics at the conversion of the
`auth` value), where the claim has exactly one query for a reference that parses. -/
theorem read_parsed_reference_without_query :
    sampleRegistry.ParseReference authInput.name = .ok alpineRef
      ∧ (dataSourceContainerRegistryImageRead sampleRegistry sampleContext authInput.toData
          (.authenticators [])).queries.length = 0 := by
  refine ⟨rfl, ?_⟩
  rw [(read_auth_block_panics sampleRegistry sampleContext authInput sampleCredentials []
    alpineRef rfl rfl).2]
  rfl

/-- The provider configuration of the examples: one block for `index.docker.io`. -/
def sampleProviderBlocks : List ProviderAuth :=
  [{ address := "index.docker.io", credentials := otherCredentials }]

/-- C9, evaluated on the code: `authInput` conforms to the schema of the data source
(a string `name`, an `auth` list of one block with the five string attributes) and
the provider map is the one `providerConfigure` returns for `sampleProviderBlocks`,
yet the read ends in a failed type assertion: the `auth` value is a
`[]interface {}` and the conversion wants a `map[string]interface {}`. -/
theorem read_schema_input_fails_assertion :
    providerConfigure sampleContext (providerData sampleProviderBlocks)
        = .ok (Meta.authenticators dockerAuthenticators, [])
      ∧ authInput.toData.GetOk "auth" = (.list [sampleCredentials.toValue], true)
      ∧ (Value.list [sampleCredentials.toValue]).assertMap
          = .error "interface conversion: interface {} is []interface {}, not map[string]interface {}"
      ∧ (dataSourceContainerRegistryImageRead sampleRegistry sampleContext authInput.toData
          (Meta.authenticators dockerAuthenticators)).outcome
          = .error "interface conversion: interface {} is []interface {}, not map[string]interface {}" :=
  ⟨rfl, rfl, rfl, rfl⟩

/-! ## The provider map -/

/-- The authenticator of a provider block: its five credential attributes. -/
def ProviderAuth.authenticator (b : ProviderAuth) : Authenticator :=
  FromConfig b.credentials.toAuthConfig

/-- The assignments of the loop of `providerConfigure`, one per block, in list
order, starting from the map `acc`. -/
def assignAll (acc : List (String × Authenticator)) (blocks : List ProviderAuth) :
    List (String × Authenticator) :=
  blocks.foldl (fun m b => assign m b.address b.authenticator) acc

theorem toValue_of_not_empty (b : ProviderAuth) (h : b.isEmpty = false) :
    b.toValue = .map b.entries := by
  simp [ProviderAuth.toValue, h]

theorem toValue_of_empty (b : ProviderAuth) (h : b.isEmpty = true) : b.toValue = .nil := by
  simp [ProviderAuth.toValue, h]

theorem providerConfigureStep_block (acc : List (String × Authenticator)) (b : ProviderAuth)
    (h : b.isEmpty = false) :
    providerConfigureStep acc b.toValue = .ok (assign acc b.address b.authenticator) := by
  rw [toValue_of_not_empty b h]
  rfl

/-- On the nil element that stands for a block with nothing set, the conversion
of main.go 27 panics. -/
theorem providerConfigureStep_empty (acc : List (String × Authenticator)) (b : ProviderAuth)
    (h : b.isEmpty = true) :
    providerConfigureStep acc b.toValue
      = .error (conversionPanic .nil "map[string]interface {}") := by
  rw [toValue_of_empty b h]
  rfl

theorem foldlM_providerConfigureStep (blocks : List ProviderAuth)
    (acc : List (String × Authenticator)) (h : ∀ b ∈ blocks, b.isEmpty = false) :
    (blocks.map ProviderAuth.toValue).foldlM providerConfigureStep acc
      = .ok (assignAll acc blocks) := by
  induction blocks generalizing acc with
  | nil => rfl
  | cons b bs ih =>
    simp only [List.map_cons, List.foldlM_cons,
      providerConfigureStep_block acc b (h b (List.mem_cons_self _ _)), bind, Except.bind]
    rw [ih _ (fun b' hb' => h b' (List.mem_cons_of_mem _ hb'))]
    rfl

/-- On blocks that each have some attribute set `providerConfigure` does not
panic; it returns the map the assignments build and no diagnostics. -/
theorem providerConfigure_blocks (ctx : Context) (blocks : List ProviderAuth)
    (h : ∀ b ∈ blocks, b.isEmpty = false) :
    providerConfigure ctx (providerData blocks)
      = .ok (Meta.authenticators (assignAll [] blocks), []) := by
  unfold providerConfigure
  have hget : (providerData blocks).Get "auth" = .list (blocks.map ProviderAuth.toValue) := rfl
  simp only [hget, Value.assertList, bind, Except.bind,
    foldlM_providerConfigureStep blocks [] h]
  rfl

/-- As soon as one block has nothing set, `providerConfigure` panics and returns
no map. -/
theorem providerConfigure_panics_of_empty (ctx : Context) (pre post : List ProviderAuth)
    (b : ProviderAuth) (hpre : ∀ x ∈ pre, x.isEmpty = false) (hb : b.isEmpty = true) :
    providerConfigure ctx (providerData (pre ++ b :: post))
      = .error (conversionPanic .nil "map[string]interface {}") := by
  unfold providerConfigure
  have hget : (providerData (pre ++ b :: post)).Get "auth"
      = .list ((pre ++ b :: post).map ProviderAuth.toValue) := rfl
  simp only [hget, Value.assertList, bind, Except.bind, List.map_append, List.map_cons,
    List.foldlM_append, List.foldlM_cons, foldlM_providerConfigureStep pre [] hpre,
    providerConfigureStep_empty _ b hb]

theorem lookup_filter_ne {V : Type} (m : List (String × V)) (k a : String) (h : a ≠ k) :
    (m.filter (fun e => e.1 != k)).lookup a = m.lookup a := by
  induction m with
  | nil => rfl
  | cons e es ih =>
    obtain ⟨k', v⟩ := e
    by_cases hk : k' = k
    · subst hk
      have hne : (a == k') = false := by simpa using h
      simp [List.filter_cons, List.lookup_cons, hne, ih]
    · have hk2 : (k' != k) = true := by simpa using hk
      simp only [List.filter_cons, hk2, if_true, List.lookup_cons, ih]

theorem lookup_assign_self {V : Type} (m : List (String × V)) (k : String) (v : V) :
    (assign m k v).lookup k = some v := by
  simp [assign, List.lookup_cons]

theorem lookup_assign_ne {V : Type} (m : List (String × V)) (k a : String) (v : V)
    (h : a ≠ k) : (assign m k v).lookup a = m.lookup a := by
  have hne : (a == k) = false := by simpa using h
  simp only [assign, List.lookup_cons, hne]
  exact lookup_filter_ne m k a h

theorem mem_keys_assign {V : Type} (m : List (String × V)) (k a : String) (v : V) :
    a ∈ (assign m k v).map Prod.fst ↔ a = k ∨ a ∈ m.map Prod.fst := by
  simp only [assign, List.map_cons, List.mem_cons, List.mem_map, List.mem_filter]
  constructor
  · rintro (h | ⟨e, ⟨he, _⟩, rfl⟩)
    · exact Or.inl h
    · exact Or.inr ⟨e, he, rfl⟩
  · rintro (h | ⟨e, he, rfl⟩)
    · exact Or.inl h
    · by_cases hk : e.1 = k
      · exact Or.inl hk
      · exact Or.inr ⟨e, ⟨he, by simpa using hk⟩, rfl⟩

theorem nodup_keys_assign {V : Type} (m : List (String × V)) (k : String) (v : V)
    (h : (m.map Prod.fst).Nodup) : ((assign m k v).map Prod.fst).Nodup := by
  simp only [assign, List.map_cons, List.nodup_cons]
  refine ⟨?_, ?_⟩
  · simp only [List.mem_map, List.mem_filter, not_exists, not_and]
    rintro e ⟨_, he⟩ hk
    simp [hk] at he
  · exact h.sublist ((List.filter_sublist m).map Prod.fst)

theorem assignAll_append (acc : List (String × Authenticator)) (xs ys : List ProviderAuth) :
    assignAll acc (xs ++ ys) = assignAll (assignAll acc xs) ys := by
  simp [assignAll, List.foldl_append]

theorem mem_keys_assignAll (blocks : List ProviderAuth) (acc : List (String × Authenticator))
    (a : String) :
    a ∈ (assignAll acc blocks).map Prod.fst
      ↔ a ∈ blocks.map ProviderAuth.address ∨ a ∈ acc.map Prod.fst := by
  induction blocks generalizing acc with
  | nil => simp [assignAll]
  | cons b bs ih =>
    have hstep : assignAll acc (b :: bs) = assignAll (assign acc b.address b.authenticator) bs :=
      rfl
    rw [hstep, ih, mem_keys_assign]
    simp only [List.map_cons, List.mem_cons]
    tauto

theorem nodup_keys_assignAll (blocks : List ProviderAuth) (acc : List (String × Authenticator))
    (h : (acc.map Prod.fst).Nodup) : ((assignAll acc blocks).map Prod.fst).Nodup := by
  induction blocks generalizing acc with
  | nil => exact h
  | cons b bs ih => exact ih _ (nodup_keys_assign acc b.address b.authenticator h)

/-- Blocks of other addresses leave the entry of `a` alone. -/
theorem lookup_assignAll_of_absent (blocks : List ProviderAuth)
    (acc : List (String × Authenticator)) (a : String)
    (h : ∀ b ∈ blocks, b.address ≠ a) : (assignAll acc blocks).lookup a = acc.lookup a := by
  induction blocks generalizing acc with
  | nil => rfl
  | cons b bs ih =>
    have hstep : assignAll acc (b :: bs) = assignAll (assign acc b.address b.authenticator) bs :=
      rfl
    rw [hstep, ih _ (fun b' hb' => h b' (List.mem_cons_of_mem _ hb'))]
    exact lookup_assign_ne acc b.address a b.authenticator
      (fun heq => h b (List.mem_cons_self _ _) heq.symm)

/-- The entry of an address is the authenticator of the last block that has it. -/
theorem lookup_assignAll_last (pre post : List ProviderAuth) (b : ProviderAuth)
    (acc : List (String × Authenticator)) (h : ∀ b' ∈ post, b'.address ≠ b.address) :
    (assignAll acc (pre ++ b :: post)).lookup b.address = some b.authenticator := by
  rw [assignAll_append]
  have hstep : assignAll (assignAll acc pre) (b :: post)
      = assignAll (assign (assignAll acc pre) b.address b.authenticator) post := rfl
  rw [hstep, lookup_assignAll_of_absent post _ b.address h]
  exact lookup_assign_self _ _ _

/-- Dropping the blocks of address `a` changes no entry of another address. -/
theorem lookup_assignAll_filter (blocks : List ProviderAuth)
    (acc acc' : List (String × Authenticator)) (a k : String) (hk : k ≠ a)
    (hacc : acc.lookup k = acc'.lookup k) :
    (assignAll acc blocks).lookup k
      = (assignAll acc' (blocks.filter (fun b => b.address != a))).lookup k := by
  induction blocks generalizing acc acc' with
  | nil => exact hacc
  | cons b bs ih =>
    have hstep : assignAll acc (b :: bs) = assignAll (assign acc b.address b.authenticator) bs :=
      rfl
    rw [hstep]
    by_cases hb : b.address = a
    · have hf : (b.address != a) = false := by simpa using hb
      rw [List.filter_cons, hf]
      apply ih
      rw [lookup_assign_ne acc b.address k b.authenticator (by rw [hb]; exact hk)]
      exact hacc
    · have hf : (b.address != a) = true := by simpa using hb
      rw [List.filter_cons, hf]
      have hstep2 : assignAll acc' (b :: bs.filter (fun b => b.address != a))
          = assignAll (assign acc' b.address b.authenticator)
              (bs.filter (fun b => b.address != a)) := rfl
      simp only [if_true]
      rw [hstep2]
      apply ih
      by_cases hkb : k = b.address
      · subst hkb
        rw [lookup_assign_self, lookup_assign_self]
      · rw [lookup_assign_ne _ _ _ _ hkb, lookup_assign_ne _ _ _ _ hkb]
        exact hacc

/-- The last block of address `a` splits the list: no block behind it has `a`. -/
theorem split_at_last_address (blocks : List ProviderAuth) (a : String) (b : ProviderAuth)
    (h : (blocks.filter (fun x => x.address == a)).getLast? = some b) :
    b.address = a ∧ ∃ pre post, blocks = pre ++ b :: post ∧ ∀ x ∈ post, x.address ≠ a := by
  induction blocks using List.reverseRecOn with
  | nil => simp at h
  | append_singleton xs x ih =>
    by_cases hx : x.address = a
    · have hf : (x.address == a) = true := by simpa using hx
      rw [List.filter_append] at h
      simp only [List.filter_cons, hf, if_true, List.filter_nil, List.getLast?_concat,
        Option.some.injEq] at h
      subst h
      exact ⟨hx, xs, [], rfl, by simp⟩
    · have hf : (x.address == a) = false := by simpa using hx
      rw [List.filter_append] at h
      simp only [List.filter_cons, hf, List.filter_nil, Bool.false_eq_true, if_false,
        List.append_nil] at h
      obtain ⟨hb, pre, post, hsplit, hpost⟩ := ih h
      refine ⟨hb, pre, post ++ [x], ?_, ?_⟩
      · rw [hsplit]
        simp
      · intro y hy
        rcases List.mem_append.mp hy with hy | hy
        · exact hpost y hy
        · simp only [List.mem_singleton] at hy
          subst hy
          exact hx

/-! ## The claims about the provider configuration -/

/-- A provider block with none of its six attributes set. -/
def emptyAuth : ProviderAuth :=
  { address := "",
    credentials :=
      { username := "", password := "", auth := "", identityToken := "", registryToken := "" } }

/-- Two provider blocks with distinct addresses, the second with nothing set. -/
def blocksWithEmpty : List ProviderAuth :=
  [{ address := "index.docker.io", credentials := sampleCredentials }, emptyAuth]

/-- C7 as stated fails: the two blocks of `blocksWithEmpty` have distinct
addresses, the second arrives as a nil element, and `providerConfigure` ends in
the panic of the conversion of main.go 27 and returns no map. -/
theorem providerConfigure_distinct_addresses_empty_block :
    (blocksWithEmpty.map ProviderAuth.address).Nodup
      ∧ providerConfigure sampleContext (providerData blocksWithEmpty)
          = .error "interface conversion: interface {} is nil, not map[string]interface {}"
      ∧ ¬ ∃ m, providerConfigure sampleContext (providerData blocksWithEmpty)
          = .ok (Meta.authenticators m, []) := by
  have hpanic : providerConfigure sampleContext (providerData blocksWithEmpty)
      = .error "interface conversion: interface {} is nil, not map[string]interface {}" := rfl
  refine ⟨by decide, hpanic, ?_⟩
  rintro ⟨m, hm⟩
  rw [hpanic] at hm
  cases hm

/-- C7, amended: for provider `auth` blocks with pairwise distinct addresses, each
with at least one attribute set, `providerConfigure` returns no diagnostics and a
map whose keys are exactly the addresses of the blocks; each address maps to the
authenticator that `buildAuthenticator` makes from its block, which carries the
block's username, password, auth, identity_token and registry_token unchanged and
nothing of the address. For the empty list the map is empty. -/
theorem providerConfigure_distinct_addresses (ctx : Context) (blocks : List ProviderAuth)
    (hset : ∀ b ∈ blocks, b.isEmpty = false)
    (hd : (blocks.map ProviderAuth.address).Nodup) :
    ∃ m, providerConfigure ctx (providerData blocks) = .ok (Meta.authenticators m, [])
      ∧ (∀ k, k ∈ m.map Prod.fst ↔ k ∈ blocks.map ProviderAuth.address)
      ∧ (∀ b ∈ blocks,
          buildAuthenticator b.entries
              = .ok (FromConfig
                  { username := b.credentials.username, password := b.credentials.password,
                    auth := b.credentials.auth, identityToken := b.credentials.identityToken,
                    registryToken := b.credentials.registryToken })
            ∧ m.lookup b.address
              = some (FromConfig
                  { username := b.credentials.username, password := b.credentials.password,
                    auth := b.credentials.auth, identityToken := b.credentials.identityToken,
                    registryToken := b.credentials.registryToken }))
      ∧ (blocks = [] → m = []) := by
  refine ⟨assignAll [] blocks, providerConfigure_blocks ctx blocks hset, ?_, ?_, ?_⟩
  · intro k
    rw [mem_keys_assignAll]
    simp
  · intro b hb
    refine ⟨rfl, ?_⟩
    obtain ⟨pre, post, hsplit⟩ := List.append_of_mem hb
    subst hsplit
    have hpost : ∀ b' ∈ post, b'.address ≠ b.address := by
      intro b' hb' heq
      simp only [List.map_append, List.map_cons] at hd
      have h2 := (List.nodup_append.mp hd).2.1
      have h3 := (List.nodup_cons.mp h2).1
      exact h3 (heq ▸ List.mem_map_of_mem ProviderAuth.address hb')
    exact lookup_assignAll_last pre post b [] hpost
  · intro h
    subst h
    rfl

/-- Two provider blocks with distinct addresses. -/
def distinctBlocks : List ProviderAuth :=
  [{ address := "index.docker.io", credentials := sampleCredentials },
   { address := "quay.io", credentials := otherCredentials }]

theorem providerConfigure_distinct_addresses_witness :
    (∀ b ∈ distinctBlocks, b.isEmpty = false)
      ∧ (distinctBlocks.map ProviderAuth.address).Nodup
      ∧ ∃ m, providerConfigure sampleContext (providerData distinctBlocks)
            = .ok (Meta.authenticators m, [])
          ∧ (∀ k, k ∈ m.map Prod.fst ↔ k ∈ distinctBlocks.map ProviderAuth.address) :=
  have hset : ∀ b ∈ distinctBlocks, b.isEmpty = false := by decide
  have hd : (distinctBlocks.map ProviderAuth.address).Nodup := by decide
  ⟨hset, hd,
    match providerConfigure_distinct_addresses sampleContext distinctBlocks hset hd with
    | ⟨m, hm, hkeys, _⟩ => ⟨m, hm, hkeys⟩⟩

/-- Two provider blocks that share the address `""` and have nothing set. -/
def duplicateEmptyBlocks : List ProviderAuth :=
  [emptyAuth, emptyAuth]

/-- C10 as stated fails: the two blocks of `duplicateEmptyBlocks` share their
address, both arrive as nil elements, and `providerConfigure` ends in the panic of
the conversion of main.go 27, so it returns no map, with or without an entry for
the shared address. -/
theorem providerConfigure_duplicate_empty_blocks :
    (duplicateEmptyBlocks.filter (fun x => x.address == "")).length = 2
      ∧ providerConfigure sampleContext (providerData duplicateEmptyBlocks)
          = .error "interface conversion: interface {} is nil, not map[string]interface {}"
      ∧ ¬ ∃ m, providerConfigure sampleContext (providerData duplicateEmptyBlocks)
          = .ok (Meta.authenticators m, []) := by
  have hpanic : providerConfigure sampleContext (providerData duplicateEmptyBlocks)
      = .error "interface conversion: interface {} is nil, not map[string]interface {}" := rfl
  refine ⟨by decide, hpanic, ?_⟩
  rintro ⟨m, hm⟩
  rw [hpanic] at hm
  cases hm

/-- C10, amended: when every block has at least one attribute set, blocks share
the address `a` (and just as well when a single block has it) and `b` is the last
block of address `a` in list order, the map that `providerConfigure` returns has
exactly one entry for `a`, namely the authenticator built from `b`; the entry of
every other address is the one of the map returned for the list without the blocks
of address `a`. -/
theorem providerConfigure_last_block_wins (ctx : Context) (blocks : List ProviderAuth)
    (a : String) (b : ProviderAuth)
    (hset : ∀ x ∈ blocks, x.isEmpty = false)
    (hlast : (blocks.filter (fun x => x.address == a)).getLast? = some b) :
    ∃ m, providerConfigure ctx (providerData blocks) = .ok (Meta.authenticators m, [])
      ∧ (m.filter (fun e => e.1 == a)).length = 1
      ∧ buildAuthenticator b.entries = .ok (FromConfig b.credentials.toAuthConfig)
      ∧ m.lookup a = some (FromConfig b.credentials.toAuthConfig)
      ∧ ∃ m', providerConfigure ctx
              (providerData (blocks.filter (fun x => x.address != a)))
            = .ok (Meta.authenticators m', [])
          ∧ ∀ k, k ≠ a → m.lookup k = m'.lookup k := by
  obtain ⟨hb, pre, post, hsplit, hpost⟩ := split_at_last_address blocks a b hlast
  subst hb
  have hlook : (assignAll [] blocks).lookup b.address = some b.authenticator := by
    rw [hsplit]
    exact lookup_assignAll_last pre post b [] hpost
  refine ⟨assignAll [] blocks, providerConfigure_blocks ctx blocks hset, ?_, rfl, hlook,
    assignAll [] (blocks.filter (fun x => x.address != b.address)),
    providerConfigure_blocks ctx _ (fun x hx => hset x (List.mem_filter.mp hx).1), ?_⟩
  · have hnd := nodup_keys_assignAll blocks [] List.nodup_nil
    have hmem : b.address ∈ (assignAll [] blocks).map Prod.fst := by
      rw [mem_keys_assignAll, hsplit]
      simp
    have hcount := List.count_eq_one_of_mem hnd hmem
    rw [List.count, List.countP_map, List.countP_eq_length_filter] at hcount
    rw [← hcount]
    congr 1
  · intro k hk
    exact lookup_assignAll_filter blocks [] [] b.address k hk rfl

/-- Provider blocks in which `index.docker.io` occurs twice. -/
def duplicateBlocks : List ProviderAuth :=
  [{ address := "index.docker.io", credentials := sampleCredentials },
   { address := "quay.io", credentials := sampleCredentials },
   { address := "index.docker.io", credentials := otherCredentials }]

theorem providerConfigure_last_block_wins_witness :
    (∀ x ∈ duplicateBlocks, x.isEmpty = false)
      ∧ (duplicateBlocks.filter (fun x => x.address == "index.docker.io")).length = 2
      ∧ (duplicateBlocks.filter (fun x => x.address == "index.docker.io")).getLast?
          = some { address := "index.docker.io", credentials := otherCredentials }
      ∧ ∃ m, providerConfigure sampleContext (providerData duplicateBlocks)
            = .ok (Meta.authenticators m, [])
          ∧ (m.filter (fun e => e.1 == "index.docker.io")).length = 1
          ∧ m.lookup "index.docker.io" = some (FromConfig otherCredentials.toAuthConfig) :=
  ⟨by decide, by decide, by decide,
    match providerConfigure_last_block_wins sampleContext duplicateBlocks "index.docker.io"
      { address := "index.docker.io", credentials := otherCredentials } (by decide)
      (by decide) with
    | ⟨m, hm, hone, _, hlook, _⟩ => ⟨m, hm, hone, hlook⟩⟩

end ContainerRegistry
